import Mathlib

/-!
Verification of the Bitget exchange adapter (`bitget.py`).

Conventions of the shallow embedding:
* Python floats are modelled as rationals (`ℚ`); the numeric string fields of
  JSON payloads are modelled by their numeric value.
* Python dict lookups that can raise `KeyError` are modelled with `Option`
  fields read through `dget`, inside an `Except` monad; a `try/except` block
  becomes a `match` on the `Except` value.
* Network transport is modelled by passing the (possibly failing) decoded
  response as an explicit argument.
-/

namespace Bitget

/-- Python `d[k]` on a dict modelled with `Option` fields: raises `KeyError`
when the key is absent. -/
def dget {α : Type} (o : Option α) : Except String α :=
  match o with
  | some v => Except.ok v
  | none => Except.error "KeyError"

/-- Python `int()` applied to a float: truncation toward zero. -/
def pyint (x : ℚ) : ℤ :=
  if 0 ≤ x then ⌊x⌋ else ⌈x⌉

/-- Python `round()` on a float (round half to even, as CPython and numpy do). -/
def pyround (x : ℚ) : ℤ :=
  let f := ⌊x⌋
  let r := x - (f : ℚ)
  if r < 1/2 then f
  else if 1/2 < r then f + 1
  else if f % 2 = 0 then f else f + 1

/-- numpy `np.mean` over a list of floats. -/
def pymean (l : List ℚ) : ℚ :=
  l.foldl (· + ·) 0 / (l.length : ℚ)

/-- Modelled from the spec: the float-rounding collaborator utility
`round_(x, step)` of `njit_funcs` (not part of the adapter source), which
"rounds to a step size": the value is divided by the step, rounded to the
nearest integer and scaled back. -/
def round_ (x step : ℚ) : ℚ :=
  ((pyround (x / step) : ℤ) : ℚ) * step

/-- `truncate_float(x, d)` from `bitget.py`: keeps `d` decimal digits of `x`,
truncating toward zero (the source does this by cutting the decimal string). -/
def truncate_float (x : ℚ) (d : ℕ) : ℚ :=
  (pyint (x * 10 ^ d) : ℚ) / 10 ^ d

/-! ### Request parameters and the signed GET string (`private_`) -/

/-- A primitive JSON-able parameter value, as passed to `private_`. -/
inductive PVal where
  | s (v : String)
  | b (v : Bool)
  | i (v : Int)
deriving DecidableEq

/-- The per-value stringification of `private_`:
`("true" if v else "false") if type(v) == bool else str(v)`. -/
def pvalStr : PVal → String
  | .b v => if v then "true" else "false"
  | .s v => v
  | .i v => toString v

/-- Key ordering used by `sort_dict_keys` (Python `sorted(d)` on string keys:
code-point lexicographic order). -/
def keyLe (a b : String × String) : Bool :=
  a.1 ≤ b.1

/-- `sort_dict_keys` from `pure_funcs`: rebuilds the parameter dict with its
keys in sorted order (modelled on the dict's key-value pair list). -/
def sort_dict_keys (params : List (String × String)) : List (String × String) :=
  params.mergeSort keyLe

/-- Hexadecimal digit used for percent-encoding (uppercase, as
`urllib.parse.quote` emits). -/
def hexDigit (n : ℕ) : Char :=
  if n < 10 then Char.ofNat (48 + n) else Char.ofNat (55 + n)

/-- Bytes left unescaped by `urllib.parse.quote_plus`: ASCII alphanumerics and
`_`, `.`, `-`, `~`. -/
def byteSafe (b : ℕ) : Bool :=
  (48 ≤ b && b ≤ 57) || (65 ≤ b && b ≤ 90) || (97 ≤ b && b ≤ 122) ||
    b == 95 || b == 46 || b == 45 || b == 126

/-- Percent-encoding of one UTF-8 byte under `quote_plus` (space becomes `+`). -/
def quoteByte (b : ℕ) : String :=
  if byteSafe b then String.singleton (Char.ofNat b)
  else if b == 32 then "+"
  else "%" ++ String.singleton (hexDigit (b / 16)) ++ String.singleton (hexDigit (b % 16))

/-- `urllib.parse.quote_plus` on a string: percent-encode its UTF-8 bytes. -/
def quote_plus (s : String) : String :=
  String.join (s.toUTF8.toList.map (fun b => quoteByte b.toNat))

/-- `urllib.parse.urlencode` on a dict, modelled on its key-value pair list in
iteration order. -/
def urlencode (params : List (String × String)) : String :=
  String.intercalate "&" (params.map (fun kv => quote_plus kv.1 ++ "=" ++ quote_plus kv.2))

/-- The URL-with-query built by `private_` for a GET request:
`url + "?" + urlencode(sort_dict_keys(params))` after stringifying values. -/
def signed_get_url (url : String) (params : List (String × PVal)) : String :=
  url ++ "?" ++ urlencode (sort_dict_keys (params.map (fun kv => (kv.1, pvalStr kv.2))))

/-- The string signed by `private_` for a GET request:
`str(timestamp) + "GET" + url` where `url` already carries the canonical query. -/
def get_to_sign (timestamp : ℤ) (url : String) (params : List (String × PVal)) : String :=
  toString timestamp ++ "GET" ++ signed_get_url url params

/-! ### The directional side maps -/

/-- `order_side_map[side][position_side]` from `BitgetBot.__init__`
(a nested dict lookup; unknown keys raise `KeyError`). -/
def order_side_map (side position_side : String) : Except String String :=
  match side, position_side with
  | "buy", "long" => Except.ok "open_long"
  | "buy", "short" => Except.ok "close_short"
  | "sell", "long" => Except.ok "close_long"
  | "sell", "short" => Except.ok "open_short"
  | _, _ => Except.error "KeyError"

/-- `fill_side_map[s]` from `BitgetBot.__init__`. -/
def fill_side_map (s : String) : Except String String :=
  match s with
  | "close_long" => Except.ok "sell"
  | "open_long" => Except.ok "buy"
  | "close_short" => Except.ok "buy"
  | "open_short" => Except.ok "sell"
  | _ => Except.error "KeyError"

/-- The inverse side decoding of `fetch_open_orders`:
`"buy" if elm["side"] in ["close_short", "open_long"] else "sell"`. -/
def open_order_side (s : String) : String :=
  if s = "close_short" ∨ s = "open_long" then "buy" else "sell"

/-- Does the character list start with `long`? -/
def charsStartWithLong : List Char → Bool
  | 'l' :: 'o' :: 'n' :: 'g' :: _ => true
  | _ => false

/-- Does the character list contain `long` as a contiguous substring? -/
def charsContainLong : List Char → Bool
  | [] => false
  | c :: rest => charsStartWithLong (c :: rest) || charsContainLong rest

/-- Python substring test `"long" in s`. -/
def contains_long (s : String) : Bool :=
  charsContainLong s.data

/-- The position-side decoding of `fetch_fills`:
`"long" if "long" in x["side"] else "short"`. -/
def fill_position_side (s : String) : String :=
  if contains_long s then "long" else "short"

/-! ### Adapter state -/

/-- The fields of `BitgetBot` that the embedded operations read. -/
structure BotState where
  symbol : String
  quote : String
  margin_coin : String
  product_type : String
  qty_step : ℚ
  price_rounding : ℕ
  emas_long : List ℚ
  emas_short : List ℚ
  ob : List ℚ
deriving DecidableEq

/-! ### `execute_order` -/

/-- The abstract order dict passed to `execute_order`. Keys the claims never
remove are plain fields; `price` and `custom_id` are `Option` so their absence
(`KeyError` on read) can be modelled. -/
structure OrderInput where
  qty : ℚ
  side : String
  position_side : String
  type : String
  price : Option ℚ
  custom_id : Option String
deriving DecidableEq

/-- The `data` payload of a successful `placeOrder` response. -/
structure OrderRespData where
  orderId : String
deriving DecidableEq

/-- The decoded venue response of `placeOrder`. The outer `Option` is key
presence (`none`: no `"data"` key, so reading it raises `KeyError`); the inner
`Option` distinguishes a truthy payload (`some`) from a falsy one such as
JSON `null` (`none`). -/
structure CreateOrderResp where
  data : Option (Option OrderRespData)
deriving DecidableEq

/-- The normalized order record `execute_order` returns on success. -/
structure ExecutedOrder where
  symbol : String
  side : String
  order_id : String
  position_side : String
  type : String
  qty : ℚ
  price : ℚ
deriving DecidableEq

/-- The value `execute_order` returns: the success record, the raw
`(response, order)` pair of the falsy-`data` branch (`return o, order`),
or the empty dict `{}` from the exception handler. -/
inductive ExecOrderResult where
  | ord (o : ExecutedOrder)
  | respAndOrder (resp : CreateOrderResp) (order : OrderInput)
  | emptyDict
deriving DecidableEq

/-- `BitgetBot.execute_order`. The body of the `try` block is run in the
`Except` monad and the `except Exception` handler turns any raised error into
`{}`. The parts of the `params` dict that cannot raise and do not flow into
the returned value (symbol, marginCoin, size, orderType, the preset fields,
timeInForceValue, clientOid) are elided; the reads that can raise — the
`order_side_map` lookup, `order["price"]` for limit orders when building
`params`, and `order["price"]` again when building the success record — are
kept, in source order. `venue` is the decoded response of the POST (`.error`
for a transport or JSON-decode failure). -/
def execute_order (bot : BotState) (order : OrderInput)
    (venue : Except String CreateOrderResp) : ExecOrderResult :=
  match (do
    let _side ← order_side_map order.side order.position_side
    let _params_price ←
      if order.type = "limit" then do
        let p ← dget order.price
        pure (some p)
      else
        pure (none : Option ℚ)
    let o ← venue
    let dataField ← dget o.data
    match dataField with
    | some d => do
        let p ← dget order.price
        pure (ExecOrderResult.ord
          { symbol := bot.symbol
            side := order.side
            order_id := d.orderId
            position_side := order.position_side
            type := order.type
            qty := order.qty
            price := p })
    | none =>
        pure (ExecOrderResult.respAndOrder o order) : Except String ExecOrderResult) with
  | Except.ok r => r
  | Except.error _ => ExecOrderResult.emptyDict

/-! ### `fetch_position` -/

/-- One element of the position response's `data` list. -/
structure PosElm where
  holdSide : String
  total : ℚ
  averageOpenPrice : ℚ
  liquidationPrice : ℚ
deriving DecidableEq

/-- One element of the balance response's `data` list. -/
structure BalElm where
  marginCoin : String
  available : ℚ
deriving DecidableEq

/-- One side of the position snapshot returned by `fetch_position`. -/
structure PosSideSnap where
  size : ℚ
  price : ℚ
  liquidation_price : ℚ
deriving DecidableEq

/-- The snapshot returned by `fetch_position`. -/
structure Position where
  long : PosSideSnap
  short : PosSideSnap
  wallet_balance : ℚ
deriving DecidableEq

/-- One iteration of the `for elm in fetched_pos["data"]` loop of
`fetch_position`: overwrite the matching side of the snapshot. -/
def applyPosElm (bot : BotState) (p : Position) (elm : PosElm) : Position :=
  if elm.holdSide = "long" then
    { p with long :=
        { size := round_ elm.total bot.qty_step
          price := truncate_float elm.averageOpenPrice bot.price_rounding
          liquidation_price := elm.liquidationPrice } }
  else if elm.holdSide = "short" then
    { p with short :=
        { size := -|round_ elm.total bot.qty_step|
          price := truncate_float elm.averageOpenPrice bot.price_rounding
          liquidation_price := elm.liquidationPrice } }
  else p

/-- The `for elm in fetched_balance["data"]` loop of `fetch_position`: the
first element whose `marginCoin` matches sets `wallet_balance` and breaks. -/
def wallet_balance_of (bot : BotState) (balData : List BalElm) : ℚ :=
  match balData.find? (fun e => e.marginCoin = bot.margin_coin) with
  | some elm =>
      if bot.product_type = "dmcbl" then
        let all_emas := bot.emas_long ++ bot.emas_short
        let all_emas := if all_emas.any (fun ema => ema = 0) then bot.ob else all_emas
        elm.available * pymean all_emas
      else
        elm.available
  | none => 0

/-- `BitgetBot.fetch_position`, applied to the decoded `data` lists of the two
concurrently fetched responses. -/
def fetch_position (bot : BotState) (posData : List PosElm) (balData : List BalElm) :
    Position :=
  let init : Position :=
    { long := { size := 0, price := 0, liquidation_price := 0 }
      short := { size := 0, price := 0, liquidation_price := 0 }
      wallet_balance := 0 }
  let p := posData.foldl (applyPosElm bot) init
  { p with wallet_balance := wallet_balance_of bot balData }

/-! ### `fetch_ohlcvs` -/

/-- `interval_map` from `BitgetBot.__init__`; the values are the granularity
strings, kept here as the integers they denote. -/
def interval_map : List (String × ℤ) :=
  [("1m", 60), ("5m", 300), ("15m", 900), ("30m", 1800), ("1h", 3600),
   ("4h", 14400), ("12h", 43200), ("1d", 86400), ("1w", 604800)]

/-- Python `interval in self.interval_map` / `self.interval_map[interval]`. -/
def interval_lookup (interval : String) : Option ℤ :=
  (interval_map.find? (fun kv => kv.1 = interval)).map Prod.snd

/-- The query parameters of the candle request built by `fetch_ohlcvs`. -/
structure OhlcvParams where
  symbol : String
  granularity : String
  startTime : ℤ
  endTime : ℤ
deriving DecidableEq

/-- A network request issued by `fetch_ohlcvs`, in issue order. -/
inductive NetReq where
  | serverTime
  | candles (params : OhlcvParams)
deriving DecidableEq

/-- `BitgetBot.fetch_ohlcvs`, up to the candle request: returns the list of
network requests issued (in order) together with either the assertion error of
the `assert interval in self.interval_map` precondition or the parameters of
the candle request. `server_time` is the value the server-time request would
return (only consulted when `start_time` is absent). -/
def fetch_ohlcvs (bot : BotState) (symbol : Option String) (start_time : Option ℚ)
    (interval : String) (server_time : ℚ) : List NetReq × Except String OhlcvParams :=
  match interval_lookup interval with
  | none => ([], Except.error ("unsupported interval " ++ interval))
  | some secondsInt =>
      let seconds : ℚ := (secondsInt : ℚ)
      let limit : ℚ := 100
      let (reqs0, startTime) :=
        match start_time with
        | none =>
            ([NetReq.serverTime],
             pyint (((pyround server_time : ℤ) : ℚ) - 1000 * seconds * limit))
        | some st => ([], pyround st)
      let endTime := pyint (((pyround ((startTime : ℚ) + 1000 * seconds * limit) : ℤ) : ℚ))
      let params : OhlcvParams :=
        { symbol := symbol.getD bot.symbol
          granularity := toString secondsInt
          startTime := startTime
          endTime := endTime }
      (reqs0 ++ [NetReq.candles params], Except.ok params)

/-! ### `fetch_fills` -/

/-- The query parameters of the fills request built by `fetch_fills`. -/
structure FillsParams where
  symbol : String
  lastEndId : Option ℤ
  startTime : ℤ
  endTime : ℤ
deriving DecidableEq

/-- One element of the fills response's `data` list. -/
structure FillElm where
  symbol : String
  tradeId : ℤ
  orderId : ℤ
  side : String
  price : ℚ
  sizeQty : ℚ
  profit : ℚ
  fillAmount : ℚ
  fee : ℚ
  cTime : ℤ
deriving DecidableEq

/-- The normalized fill record of `fetch_fills`. -/
structure Fill where
  symbol : String
  id : ℤ
  order_id : ℤ
  side : String
  price : ℚ
  qty : ℚ
  realized_pnl : ℚ
  cost : ℚ
  fee_paid : ℚ
  fee_token : String
  timestamp : ℤ
  position_side : String
  is_maker : String
deriving DecidableEq

/-- The `params` dict built by `fetch_fills`. `server_time` is the venue
server time in ms (fetched only when `start_time` is absent); `now` is the
local `time()` in seconds. `int(round(x))` is `pyround` (Python's `round`
already yields an integer). -/
def fill_request_params (bot : BotState) (symbol : Option String) (from_id : Option ℤ)
    (start_time : Option ℚ) (server_time : ℚ) (now : ℚ) : FillsParams :=
  { symbol := symbol.getD bot.symbol
    lastEndId := from_id.map (fun fid => max 0 (fid - 1))
    startTime :=
      match start_time with
      | none => pyround (server_time - 1000 * 60 * 60 * 24)
      | some st => pyround st
    endTime := pyround (now + 60 * 60 * 24) * 1000 }

/-- The per-record normalization of `fetch_fills` (one element of its list
comprehension); the `fill_side_map` dict lookup can raise `KeyError`. -/
def decodeFill (bot : BotState) (x : FillElm) : Except String Fill := do
  let side ← fill_side_map x.side
  pure
    { symbol := x.symbol
      id := x.tradeId
      order_id := x.orderId
      side := side
      price := x.price
      qty := x.sizeQty
      realized_pnl := x.profit
      cost := x.fillAmount
      fee_paid := x.fee
      fee_token := bot.quote
      timestamp := x.cTime
      position_side := fill_position_side x.side
      is_maker := "unknown" }

/-- `BitgetBot.fetch_fills`: builds the request parameters, issues the request
(`venue`, a function of the parameters whose `.error` case models a transport
or JSON-decode failure), normalizes each record; the `try/except` turns any
error into the empty list. -/
def fetch_fills (bot : BotState) (symbol : Option String) (from_id : Option ℤ)
    (start_time : Option ℚ) (server_time : ℚ) (now : ℚ)
    (venue : FillsParams → Except String (List FillElm)) : List Fill :=
  match (do
    let fetched ← venue (fill_request_params bot symbol from_id start_time server_time now)
    fetched.mapM (decodeFill bot) : Except String (List Fill)) with
  | Except.ok fills => fills
  | Except.error _ => []

/-! ### `standardize_user_stream_event` -/

/-- One element of a user-stream frame's `data` list, modelled as a dict with
`Option` fields covering every key the standardizer reads. -/
structure StreamElm where
  instId : Option String
  status : Option String
  ordId : Option String
  px : Option ℚ
  sz : Option ℚ
  ordType : Option String
  side : Option String
  posSide : Option String
  uTime : Option String
  holdSide : Option String
  total : Option ℚ
  averageOpenPrice : Option ℚ
  marginCoin : Option String
  available : Option ℚ
deriving DecidableEq

/-- The `new_open_order` payload emitted for a `new` order event. -/
structure StdOrder where
  order_id : String
  symbol : String
  price : ℚ
  qty : ℚ
  type : String
  side : String
  position_side : String
  timestamp : String
deriving DecidableEq

/-- One standardized event dict: a field is `some` exactly when the
corresponding key is present. The dynamic keys `psize_<side>` and
`pprice_<side>` are modelled as the pair of the side suffix and the value. -/
structure StdEvent where
  deleted_order_id : Option String
  new_open_order : Option StdOrder
  partially_filled : Option Bool
  filled : Option Bool
  psize : Option (String × ℚ)
  pprice : Option (String × ℚ)
  wallet_balance : Option ℚ
deriving DecidableEq

/-- The empty dict `{}`. -/
def emptyEvent : StdEvent :=
  { deleted_order_id := none
    new_open_order := none
    partially_filled := none
    filled := none
    psize := none
    pprice := none
    wallet_balance := none }

/-- One iteration of the `orders`-channel loop of
`standardize_user_stream_event`: `none` when the record is filtered out,
otherwise the event appended (the empty dict for an unrecognized status). -/
def stdOrderElm (bot : BotState) (elm : StreamElm) : Except String (Option StdEvent) := do
  let instId ← dget elm.instId
  if instId = bot.symbol ∧ elm.status.isSome then do
    let status ← dget elm.status
    match status with
    | "cancelled" => do
        let oid ← dget elm.ordId
        pure (some { emptyEvent with deleted_order_id := some oid })
    | "new" => do
        let oid ← dget elm.ordId
        let px ← dget elm.px
        let sz ← dget elm.sz
        let t ← dget elm.ordType
        let sd ← dget elm.side
        let ps ← dget elm.posSide
        let ut ← dget elm.uTime
        let newOrder : StdOrder :=
          { order_id := oid
            symbol := instId
            price := px
            qty := sz
            type := t
            side := sd
            position_side := ps
            timestamp := ut }
        pure (some { emptyEvent with new_open_order := some newOrder })
    | "partial-fill" => do
        let oid ← dget elm.ordId
        pure (some { emptyEvent with deleted_order_id := some oid,
                                     partially_filled := some true })
    | "full-fill" => do
        let oid ← dget elm.ordId
        pure (some { emptyEvent with deleted_order_id := some oid, filled := some true })
    | _ => pure (some emptyEvent)
  else
    pure none

/-- One iteration of the `positions`-channel loop of
`standardize_user_stream_event`. -/
def stdPositionElm (bot : BotState) (elm : StreamElm) : Except String (Option StdEvent) := do
  let instId ← dget elm.instId
  if instId = bot.symbol ∧ elm.averageOpenPrice.isSome then do
    let holdSide ← dget elm.holdSide
    let total ← dget elm.total
    let aop ← dget elm.averageOpenPrice
    pure (some { emptyEvent with
      psize := some (holdSide,
        round_ |total| bot.qty_step * (if holdSide = "short" then -1 else 1))
      pprice := some (holdSide, truncate_float aop bot.price_rounding) })
  else
    pure none

/-- One iteration of the `account`-channel loop of
`standardize_user_stream_event`; the source compares `elm["marginCoin"]`
against `self.quote`. -/
def stdAccountElm (bot : BotState) (elm : StreamElm) : Except String (Option StdEvent) := do
  let mc ← dget elm.marginCoin
  if mc = bot.quote then do
    let av ← dget elm.available
    pure (some { emptyEvent with wallet_balance := some av })
  else
    pure none

/-- A per-record channel loop: appends, in order, the event (if any) each
record produces; a raised `KeyError` aborts the whole standardizer, as in the
source (which has no `try/except` here). -/
def stdChannel (f : StreamElm → Except String (Option StdEvent)) :
    List StreamElm → Except String (List StdEvent)
  | [] => Except.ok []
  | elm :: rest => do
      let o ← f elm
      let tail ← stdChannel f rest
      match o with
      | some ev => pure (ev :: tail)
      | none => pure tail

/-- A user-stream frame: `arg_channel` is `event["arg"]["channel"]` when the
`arg`/`channel` keys are present, `data` is `event["data"]` when present. -/
structure Frame where
  arg_channel : Option String
  data : Option (List StreamElm)
deriving DecidableEq

/-- `BitgetBot.standardize_user_stream_event`: dispatches on the channel name
(the three sequential `if` blocks of the source; at most one matches since the
channel is a single value) and concatenates the per-channel events. -/
def standardize_user_stream_event (bot : BotState) (event : Frame) :
    Except String (List StdEvent) :=
  match event.arg_channel, event.data with
  | some ch, some data => do
      let e1 ← if ch = "orders" then stdChannel (stdOrderElm bot) data else pure []
      let e2 ← if ch = "positions" then stdChannel (stdPositionElm bot) data else pure []
      let e3 ← if ch = "account" then stdChannel (stdAccountElm bot) data else pure []
      pure (e1 ++ e2 ++ e3)
  | _, _ => Except.ok []

/-! ## Claims -/

/-- `keyLe` is transitive (inherited from the string order). -/
theorem keyLe_trans (a b c : String × String) :
    keyLe a b = true → keyLe b c = true → keyLe a c = true := by
  simp only [keyLe, decide_eq_true_eq]
  exact le_trans

/-- `keyLe` is total (inherited from the string order). -/
theorem keyLe_total (a b : String × String) : (keyLe a b || keyLe b a) = true := by
  simp only [keyLe, Bool.or_eq_true, decide_eq_true_eq]
  exact le_total a.1 b.1

/-- Two sorted key-value lists that are permutations of each other and have
duplicate-free keys are equal. -/
theorem sorted_perm_nodup_keys_eq (l1 : List (String × String)) :
    ∀ l2, l1.Perm l2 →
      l1.Pairwise (fun a b => keyLe a b = true) →
      l2.Pairwise (fun a b => keyLe a b = true) →
      (l1.map Prod.fst).Nodup → l1 = l2 := by
  induction l1 with
  | nil => intro l2 hp _ _ _; exact hp.nil_eq
  | cons a t1 ih =>
    intro l2 hp hs1 hs2 hnd
    cases l2 with
    | nil => exact absurd hp.symm.nil_eq (by simp)
    | cons b t2 =>
      by_cases hab : a = b
      · subst hab
        have hteq : t1 = t2 := by
          refine ih t2 hp.cons_inv hs1.of_cons hs2.of_cons ?_
          simpa using hnd.of_cons
        rw [hteq]
      · exfalso
        have hbt1 : b ∈ t1 := by
          have : b ∈ a :: t1 := hp.mem_iff.mpr (List.mem_cons_self b t2)
          rcases this with _ | h
          · exact absurd rfl hab
          · assumption
        have hat2 : a ∈ t2 := by
          have : a ∈ b :: t2 := hp.mem_iff.mp (List.mem_cons_self a t1)
          rcases this with _ | h
          · exact absurd rfl hab
          · assumption
        have h1 : a.1 ≤ b.1 := by
          have := (List.pairwise_cons.mp hs1).1 b hbt1
          simpa [keyLe] using this
        have h2 : b.1 ≤ a.1 := by
          have := (List.pairwise_cons.mp hs2).1 a hat2
          simpa [keyLe] using this
        have hkey : a.1 = b.1 := le_antisymm h1 h2
        have hmem : a.1 ∈ t1.map Prod.fst := by
          rw [hkey]
          exact List.mem_map_of_mem Prod.fst hbt1
        have hnd2 := hnd
        rw [List.map_cons, List.nodup_cons] at hnd2
        exact hnd2.1 hmem

/-- `sort_dict_keys` maps permuted dicts with duplicate-free keys to the same
canonical list. -/
theorem sort_dict_keys_perm_eq (l1 l2 : List (String × String))
    (hperm : l1.Perm l2) (hnd : (l1.map Prod.fst).Nodup) :
    sort_dict_keys l1 = sort_dict_keys l2 := by
  refine sorted_perm_nodup_keys_eq _ _ ?_ ?_ ?_ ?_
  · exact (List.mergeSort_perm l1 keyLe).trans (hperm.trans (List.mergeSort_perm l2 keyLe).symm)
  · exact List.sorted_mergeSort keyLe_trans keyLe_total l1
  · exact List.sorted_mergeSort keyLe_trans keyLe_total l2
  · exact ((List.mergeSort_perm l1 keyLe).map Prod.fst).nodup_iff.mpr hnd

/-- C1: for a GET request, two parameter dicts holding the same key-value
pairs in different insertion orders produce the same string to sign, and hence
the same HMAC-SHA256/base64 signature (for any signing function of that
string). -/
theorem get_signing_insertion_order_independent
    (timestamp : ℤ) (url : String) (p1 p2 : List (String × PVal))
    (hperm : p1.Perm p2) (hnd : (p1.map Prod.fst).Nodup)
    (hmacSig : String → String) :
    hmacSig (get_to_sign timestamp url p1) = hmacSig (get_to_sign timestamp url p2) := by
  have hkeys : (p1.map (fun kv => (kv.1, pvalStr kv.2))).map Prod.fst = p1.map Prod.fst := by
    simp [List.map_map, Function.comp]
  have hsort : sort_dict_keys (p1.map (fun kv => (kv.1, pvalStr kv.2))) =
      sort_dict_keys (p2.map (fun kv => (kv.1, pvalStr kv.2))) := by
    refine sort_dict_keys_perm_eq _ _ (hperm.map _) ?_
    rw [hkeys]
    exact hnd
  unfold get_to_sign signed_get_url
  rw [hsort]

/-- Witness for C1: swapping the insertion order of two concrete parameters
leaves the signed string unchanged. -/
theorem get_signing_insertion_order_independent_witness :
    get_to_sign 17 "/api/mix/v1/order/current"
        [("symbol", PVal.s "BTCUSDT_UMCBL"), ("marginCoin", PVal.s "USDT")] =
      get_to_sign 17 "/api/mix/v1/order/current"
        [("marginCoin", PVal.s "USDT"), ("symbol", PVal.s "BTCUSDT_UMCBL")] :=
  get_signing_insertion_order_independent 17 "/api/mix/v1/order/current" _ _
    (List.Perm.swap _ _ _) (by decide) id


/-- C2: the forward mapping from `(side, position_side)` to the venue's four
order intents and the inverse mapping used when reading orders and fills back
(`fill_side_map` / the `close_short`-or-`open_long`-means-buy rule, with the
position side recovered from the `long`/`short` component of the intent) are
exact two-way inverses over all four combinations. -/
theorem side_maps_are_two_way_inverses (side pside : String)
    (hs : side = "buy" ∨ side = "sell") (hp : pside = "long" ∨ pside = "short") :
    ∃ intent, order_side_map side pside = Except.ok intent ∧
      fill_side_map intent = Except.ok side ∧
      open_order_side intent = side ∧
      fill_position_side intent = pside := by
  rcases hs with h | h <;> rcases hp with h2 | h2 <;> subst h <;> subst h2
  · exact ⟨"open_long", rfl, rfl, by decide, by decide⟩
  · exact ⟨"close_short", rfl, rfl, by decide, by decide⟩
  · exact ⟨"close_long", rfl, rfl, by decide, by decide⟩
  · exact ⟨"open_short", rfl, rfl, by decide, by decide⟩

/-- Witness for C2 at the concrete pair `("buy", "long")`. -/
theorem side_maps_are_two_way_inverses_witness :
    ("buy" = "buy" ∨ "buy" = "sell") ∧ ("long" = "long" ∨ "long" = "short") ∧
    ∃ intent, order_side_map "buy" "long" = Except.ok intent ∧
      fill_side_map intent = Except.ok "buy" ∧
      open_order_side intent = "buy" ∧
      fill_position_side intent = "long" :=
  ⟨Or.inl rfl, Or.inl rfl,
    side_maps_are_two_way_inverses "buy" "long" (Or.inl rfl) (Or.inl rfl)⟩

/-- C3 (code bug): on a venue response that carries a `data` key with a falsy
payload (JSON `null`), `execute_order` does not return the empty failure
marker: it takes the `return o, order` branch and returns the raw
`(response, order)` pair. -/
theorem execute_order_falsy_data_returns_pair :
    execute_order ⟨"BTCUSDT_UMCBL", "USDT", "USDT", "umcbl", 1, 2, [], [], []⟩
        ⟨1, "buy", "long", "limit", some 100, none⟩
        (Except.ok ⟨some none⟩) =
      ExecOrderResult.respAndOrder ⟨some none⟩ ⟨1, "buy", "long", "limit", some 100, none⟩ ∧
    ExecOrderResult.respAndOrder (⟨some none⟩ : CreateOrderResp)
        ⟨1, "buy", "long", "limit", some 100, none⟩ ≠ ExecOrderResult.emptyDict := by
  exact ⟨rfl, by decide⟩

/-- C10: a market order whose input dict has no `price` key makes
`execute_order` return the empty failure marker even when the venue accepts
the order and returns a data payload, because the success record reads
`order["price"]` unconditionally and the `KeyError` is swallowed. -/
theorem market_order_without_price_returns_empty
    (bot : BotState) (qty : ℚ) (side pside : String) (cid : Option String)
    (oid : String) (intent : String)
    (hmap : order_side_map side pside = Except.ok intent) :
    execute_order bot ⟨qty, side, pside, "market", none, cid⟩
      (Except.ok ⟨some (some ⟨oid⟩)⟩) = ExecOrderResult.emptyDict := by
  unfold execute_order
  rw [hmap]
  rfl

/-- Witness for C10 at a concrete accepted market order. -/
theorem market_order_without_price_returns_empty_witness :
    order_side_map "buy" "long" = Except.ok "open_long" ∧
    execute_order ⟨"BTCUSDT_UMCBL", "USDT", "USDT", "umcbl", 1, 2, [], [], []⟩
        ⟨1, "buy", "long", "market", none, none⟩
        (Except.ok ⟨some (some ⟨"42"⟩)⟩) = ExecOrderResult.emptyDict :=
  ⟨rfl, market_order_without_price_returns_empty
    ⟨"BTCUSDT_UMCBL", "USDT", "USDT", "umcbl", 1, 2, [], [], []⟩
    1 "buy" "long" none "42" "open_long" rfl⟩


/-! ### Reduction helpers for the `Except` monad -/

/-- Bind on a successful `Except` computes the continuation. -/
theorem ok_bind {α β : Type} (a : α) (f : α → Except String β) :
    (Except.ok a >>= f : Except String β) = f a := rfl

/-- Bind on a failed `Except` propagates the error. -/
theorem error_bind {α β : Type} (e : String) (f : α → Except String β) :
    ((Except.error e : Except String α) >>= f) = Except.error e := rfl

/-- Reading a present key succeeds. -/
theorem dget_some {α : Type} (v : α) : dget (some v) = Except.ok v := rfl

/-- Reading an absent key raises `KeyError`. -/
theorem dget_none {α : Type} : dget (none : Option α) = Except.error "KeyError" := rfl

/-- Mapping over a successful `Except`. -/
theorem map_ok {α β : Type} (f : α → β) (a : α) :
    (f <$> (Except.ok a : Except String α)) = Except.ok (f a) := rfl

/-- Pure is a successful `Except`. -/
theorem pure_except {α : Type} (a : α) : (pure a : Except String α) = Except.ok a := rfl

/-! ### Arithmetic helpers -/

/-- Python `round()` of a non-negative float is non-negative. -/
theorem pyround_nonneg (x : ℚ) (hx : 0 ≤ x) : 0 ≤ pyround x := by
  have hf : (0 : ℤ) ≤ ⌊x⌋ := Int.floor_nonneg.mpr hx
  simp only [pyround]
  split
  · exact hf
  · split
    · omega
    · split <;> omega

/-- Step-rounding a non-negative value by a positive step stays non-negative. -/
theorem round_nonneg (x step : ℚ) (hx : 0 ≤ x) (hstep : 0 < step) :
    0 ≤ round_ x step := by
  unfold round_
  have h1 : 0 ≤ pyround (x / step) := pyround_nonneg _ (div_nonneg hx hstep.le)
  have h2 : (0 : ℚ) ≤ ((pyround (x / step) : ℤ) : ℚ) := by exact_mod_cast h1
  exact mul_nonneg h2 hstep.le

/-- Python `int()` of an integer-valued float is that integer. -/
theorem pyint_intCast (n : ℤ) : pyint (n : ℚ) = n := by
  unfold pyint
  split
  · exact Int.floor_intCast n
  · exact Int.ceil_intCast n

/-- Python `round()` of an integer-valued float is that integer. -/
theorem pyround_intCast (n : ℤ) : pyround (n : ℚ) = n := by
  simp only [pyround, Int.floor_intCast]
  have h : (n : ℚ) - (n : ℚ) = 0 := by ring
  rw [h]
  norm_num

/-! ### C4: sign conventions of position snapshots and stream events -/

/-- The position-loop of `fetch_position` keeps the sign convention: short
sizes stay non-positive and (for non-negative venue totals) long sizes stay
non-negative. -/
theorem foldl_applyPosElm_sign (bot : BotState) (hstep : 0 < bot.qty_step) :
    ∀ (l : List PosElm) (p : Position),
      (∀ e ∈ l, e.holdSide = "long" → 0 ≤ e.total) →
      p.short.size ≤ 0 → 0 ≤ p.long.size →
      (l.foldl (applyPosElm bot) p).short.size ≤ 0 ∧
        0 ≤ (l.foldl (applyPosElm bot) p).long.size := by
  intro l
  induction l with
  | nil => intro p _ h1 h2; exact ⟨h1, h2⟩
  | cons e t ih =>
    intro p htot h1 h2
    rw [List.foldl_cons]
    refine ih (applyPosElm bot p e) (fun x hx => htot x (List.mem_cons_of_mem e hx)) ?_ ?_
    · unfold applyPosElm
      split
      · simpa using h1
      · split
        · simp only
          exact neg_nonpos.mpr (abs_nonneg _)
        · exact h1
    · unfold applyPosElm
      split
      · simp only
        exact round_nonneg _ _ (htot e (List.mem_cons_self e t) (by assumption)) hstep
      · split
        · simpa using h2
        · exact h2

/-- C4: `fetch_position` never returns a short side with positive size nor a
long side with negative size (given the venue's non-negative size magnitudes
and a positive quantity step; absent sides default to size 0), and every
positions-channel stream event carries a non-positive `psize_short`
(re-signed negative) and a non-negative `psize_long`. -/
theorem position_sign_convention
    (bot : BotState) (posData : List PosElm) (balData : List BalElm)
    (elm : StreamElm) (instId holdSide : String) (total aop : ℚ)
    (hstep : 0 < bot.qty_step)
    (htot : ∀ e ∈ posData, e.holdSide = "long" → 0 ≤ e.total)
    (hinst : elm.instId = some instId) (hsym : instId = bot.symbol)
    (hhold : elm.holdSide = some holdSide) (htotal : elm.total = some total)
    (haop : elm.averageOpenPrice = some aop) :
    ((fetch_position bot posData balData).short.size ≤ 0 ∧
      0 ≤ (fetch_position bot posData balData).long.size) ∧
    (stdPositionElm bot elm = Except.ok (some { emptyEvent with
        psize := some (holdSide,
          round_ |total| bot.qty_step * (if holdSide = "short" then -1 else 1))
        pprice := some (holdSide, truncate_float aop bot.price_rounding) }) ∧
      (holdSide = "short" →
        round_ |total| bot.qty_step * (if holdSide = "short" then (-1 : ℚ) else 1) ≤ 0) ∧
      (holdSide = "long" →
        0 ≤ round_ |total| bot.qty_step * (if holdSide = "short" then (-1 : ℚ) else 1))) := by
  have hsign := round_nonneg |total| bot.qty_step (abs_nonneg _) hstep
  constructor
  · exact foldl_applyPosElm_sign bot hstep posData
      { long := { size := 0, price := 0, liquidation_price := 0 }
        short := { size := 0, price := 0, liquidation_price := 0 }
        wallet_balance := 0 } htot le_rfl le_rfl
  · refine ⟨?_, ?_, ?_⟩
    · subst hsym
      unfold stdPositionElm
      rw [hinst, hhold, htotal, haop]
      simp only [dget_some, ok_bind]
      rw [if_pos]
      · simp only [dget_some, ok_bind, map_ok, pure_except]
      · exact ⟨trivial, rfl⟩
    · intro hs
      rw [hs, if_pos rfl, mul_neg_one]
      exact neg_nonpos.mpr hsign
    · intro hs
      rw [hs, if_neg (by decide), mul_one]
      exact hsign

/-- Witness for C4 at a concrete snapshot and a concrete short-side stream
record. -/
theorem position_sign_convention_witness :
    ((fetch_position ⟨"S", "USDT", "USDT", "umcbl", 1, 2, [], [], []⟩
        [⟨"long", 2, 100, 50⟩, ⟨"short", 3, 100, 200⟩] []).short.size ≤ 0 ∧
      0 ≤ (fetch_position ⟨"S", "USDT", "USDT", "umcbl", 1, 2, [], [], []⟩
        [⟨"long", 2, 100, 50⟩, ⟨"short", 3, 100, 200⟩] []).long.size) ∧
    (stdPositionElm ⟨"S", "USDT", "USDT", "umcbl", 1, 2, [], [], []⟩
        ⟨some "S", none, none, none, none, none, none, none, none, some "short",
          some 3, some 100, none, none⟩ = Except.ok (some { emptyEvent with
        psize := some ("short",
          round_ |(3 : ℚ)| 1 * (if ("short" : String) = "short" then -1 else 1))
        pprice := some ("short", truncate_float 100 2) }) ∧
      (("short" : String) = "short" →
        round_ |(3 : ℚ)| 1 * (if ("short" : String) = "short" then (-1 : ℚ) else 1) ≤ 0) ∧
      (("short" : String) = "long" →
        0 ≤ round_ |(3 : ℚ)| 1 * (if ("short" : String) = "short" then (-1 : ℚ) else 1))) :=
  position_sign_convention ⟨"S", "USDT", "USDT", "umcbl", 1, 2, [], [], []⟩
    [⟨"long", 2, 100, 50⟩, ⟨"short", 3, 100, 200⟩] []
    ⟨some "S", none, none, none, none, none, none, none, none, some "short",
      some 3, some 100, none, none⟩
    "S" "short" 3 100 (by norm_num) (by decide) rfl rfl rfl rfl rfl

/-! ### C5: wallet balance conversion for inverse contracts -/

/-- C5: for inverse contracts (product type `dmcbl`), `fetch_position`
computes the wallet balance as the available balance times the arithmetic
mean of all long-side and short-side EMAs, falling back to the mean of the
stored order-book top when any EMA is exactly 0; otherwise the available
balance is used unchanged. -/
theorem inverse_contract_wallet_conversion
    (bot : BotState) (posData : List PosElm) (balData : List BalElm) (elm : BalElm)
    (hfind : balData.find? (fun e => e.marginCoin = bot.margin_coin) = some elm) :
    (bot.product_type = "dmcbl" →
      (fetch_position bot posData balData).wallet_balance =
        elm.available *
          pymean (if (bot.emas_long ++ bot.emas_short).any (fun ema => ema = 0)
                  then bot.ob
                  else bot.emas_long ++ bot.emas_short)) ∧
    (bot.product_type ≠ "dmcbl" →
      (fetch_position bot posData balData).wallet_balance = elm.available) := by
  constructor
  · intro hdm
    show wallet_balance_of bot balData = _
    simp only [wallet_balance_of, hfind]
    rw [if_pos hdm]
  · intro hne
    show wallet_balance_of bot balData = _
    simp only [wallet_balance_of, hfind]
    rw [if_neg hne]

/-- Witness for C5 at a concrete inverse-contract adapter whose balance is
denominated in the base coin. -/
theorem inverse_contract_wallet_conversion_witness :
    (("dmcbl" : String) = "dmcbl" →
      (fetch_position ⟨"S", "USD", "BTC", "dmcbl", 1, 2, [1, 2], [3], [10, 20]⟩
          [] [⟨"BTC", 7⟩]).wallet_balance =
        7 * pymean (if (([1, 2] : List ℚ) ++ [3]).any (fun ema => ema = 0)
                    then [10, 20]
                    else ([1, 2] : List ℚ) ++ [3])) ∧
    (("dmcbl" : String) ≠ "dmcbl" →
      (fetch_position ⟨"S", "USD", "BTC", "dmcbl", 1, 2, [1, 2], [3], [10, 20]⟩
          [] [⟨"BTC", 7⟩]).wallet_balance = 7) :=
  inverse_contract_wallet_conversion
    ⟨"S", "USD", "BTC", "dmcbl", 1, 2, [1, 2], [3], [10, 20]⟩ [] [⟨"BTC", 7⟩] ⟨"BTC", 7⟩ rfl

/-! ### C6: order-channel event shapes -/

/-- C6: for an order-channel record for the adapter's symbol,
`standardize_user_stream_event` emits exactly the record determined by the
status: `cancelled` yields only `deleted_order_id`; `new` yields only
`new_open_order`; `partial-fill` yields `deleted_order_id` with
`partially_filled = true`; `full-fill` yields `deleted_order_id` with
`filled = true` — and no other keys; the frame-level standardizer emits
exactly that record for the frame's data element. -/
theorem order_channel_event_shapes (bot : BotState) (elm : StreamElm) (instId oid : String)
    (hinst : elm.instId = some instId) (hsym : instId = bot.symbol)
    (hoid : elm.ordId = some oid) :
    (elm.status = some "cancelled" →
      stdOrderElm bot elm =
        Except.ok (some { emptyEvent with deleted_order_id := some oid })) ∧
    (∀ px sz t sd ps ut, elm.status = some "new" → elm.px = some px → elm.sz = some sz →
      elm.ordType = some t → elm.side = some sd → elm.posSide = some ps →
      elm.uTime = some ut →
      stdOrderElm bot elm = Except.ok (some { emptyEvent with
        new_open_order := some (⟨oid, instId, px, sz, t, sd, ps, ut⟩ : StdOrder) })) ∧
    (elm.status = some "partial-fill" →
      stdOrderElm bot elm = Except.ok (some { emptyEvent with
        deleted_order_id := some oid, partially_filled := some true })) ∧
    (elm.status = some "full-fill" →
      stdOrderElm bot elm = Except.ok (some { emptyEvent with
        deleted_order_id := some oid, filled := some true })) ∧
    (∀ ev, stdOrderElm bot elm = Except.ok (some ev) →
      standardize_user_stream_event bot ⟨some "orders", some [elm]⟩ = Except.ok [ev]) := by
  subst hsym
  refine ⟨?_, ?_, ?_, ?_, ?_⟩
  · intro hstat
    unfold stdOrderElm
    rw [hinst, hstat, hoid]
    simp only [dget_some, ok_bind]
    rw [if_pos ⟨trivial, rfl⟩]
    simp only [dget_some, ok_bind, pure_except]
  · intro px sz t sd ps ut hstat hpx hsz ht hsd hps hut
    unfold stdOrderElm
    rw [hinst, hstat, hoid, hpx, hsz, ht, hsd, hps, hut]
    simp only [dget_some, ok_bind]
    rw [if_pos ⟨trivial, rfl⟩]
    simp only [dget_some, ok_bind, map_ok, pure_except]
  · intro hstat
    unfold stdOrderElm
    rw [hinst, hstat, hoid]
    simp only [dget_some, ok_bind]
    rw [if_pos ⟨trivial, rfl⟩]
    simp only [dget_some, ok_bind, pure_except]
  · intro hstat
    unfold stdOrderElm
    rw [hinst, hstat, hoid]
    simp only [dget_some, ok_bind]
    rw [if_pos ⟨trivial, rfl⟩]
    simp only [dget_some, ok_bind, pure_except]
  · intro ev h
    unfold standardize_user_stream_event
    simp only [stdChannel, h, ok_bind, pure_except]
    rfl

/-- Witness for C6 at a concrete `full-fill` record, together with the
frame-level emission. -/
theorem order_channel_event_shapes_witness :
    stdOrderElm ⟨"S", "USDT", "USDT", "umcbl", 1, 2, [], [], []⟩
        ⟨some "S", some "full-fill", some "7", none, none, none, none, none, none,
          none, none, none, none, none⟩ =
      Except.ok (some { emptyEvent with
        deleted_order_id := some "7", filled := some true }) ∧
    standardize_user_stream_event ⟨"S", "USDT", "USDT", "umcbl", 1, 2, [], [], []⟩
        ⟨some "orders",
          some [⟨some "S", some "full-fill", some "7", none, none, none, none, none,
                 none, none, none, none, none, none⟩]⟩ =
      Except.ok [{ emptyEvent with deleted_order_id := some "7", filled := some true }] := by
  have h := order_channel_event_shapes ⟨"S", "USDT", "USDT", "umcbl", 1, 2, [], [], []⟩
    ⟨some "S", some "full-fill", some "7", none, none, none, none, none, none,
      none, none, none, none, none⟩ "S" "7" rfl rfl rfl
  exact ⟨h.2.2.2.1 rfl, h.2.2.2.2 _ (h.2.2.2.1 rfl)⟩

/-! ### C7: OHLCV interval precondition and window arithmetic -/

/-- Helper: the default start time equals the rounded server time minus 100
interval widths. -/
theorem default_ohlcv_start (server_time : ℚ) (seconds : ℤ) :
    pyint (((pyround server_time : ℤ) : ℚ) - 1000 * (seconds : ℚ) * 100) =
      pyround server_time - 1000 * seconds * 100 := by
  have h1 : ((pyround server_time : ℤ) : ℚ) - 1000 * (seconds : ℚ) * 100 =
      ((pyround server_time - 1000 * seconds * 100 : ℤ) : ℚ) := by push_cast; ring
  rw [h1, pyint_intCast]

/-- Helper: the end time equals the start time plus 100 interval widths. -/
theorem ohlcv_end_of_start (s seconds : ℤ) :
    pyint (((pyround ((s : ℚ) + 1000 * (seconds : ℚ) * 100) : ℤ) : ℚ)) =
      s + 1000 * seconds * 100 := by
  have h1 : ((s : ℚ) + 1000 * (seconds : ℚ) * 100) =
      ((s + 1000 * seconds * 100 : ℤ) : ℚ) := by push_cast; ring
  rw [h1, pyround_intCast, pyint_intCast]

/-- C7: an interval outside the fixed enumerated set makes `fetch_ohlcvs`
fail before issuing any network request (its request list is empty); for a
supported interval, the default start time is the server time minus 100
interval widths (in ms) and the end time is always the start time plus 100
interval widths. -/
theorem ohlcv_precondition_and_window (bot : BotState) (symbol : Option String)
    (start_time : Option ℚ) (interval : String) (server_time : ℚ) :
    (interval_lookup interval = none →
      fetch_ohlcvs bot symbol start_time interval server_time =
        ([], Except.error ("unsupported interval " ++ interval))) ∧
    (∀ seconds, interval_lookup interval = some seconds →
      ∃ params,
        fetch_ohlcvs bot symbol start_time interval server_time =
          ((if start_time = none then [NetReq.serverTime] else []) ++ [NetReq.candles params],
            Except.ok params) ∧
        (start_time = none →
          params.startTime = pyround server_time - 1000 * seconds * 100) ∧
        params.endTime = params.startTime + 1000 * seconds * 100) := by
  constructor
  · intro h
    unfold fetch_ohlcvs
    rw [h]
  · intro seconds h
    unfold fetch_ohlcvs
    rw [h]
    cases start_time with
    | none =>
        refine ⟨_, rfl, fun _ => default_ohlcv_start server_time seconds, ?_⟩
        exact ohlcv_end_of_start _ seconds
    | some st =>
        refine ⟨_, rfl, fun hh => absurd hh (by simp), ?_⟩
        exact ohlcv_end_of_start _ seconds

/-- Witness for C7: the unsupported interval `2m` fails without issuing a
request, and a default `1m` call gets the trailing-100-candle window. -/
theorem ohlcv_precondition_and_window_witness :
    fetch_ohlcvs ⟨"S", "USDT", "USDT", "umcbl", 1, 2, [], [], []⟩ none none "2m" 0 =
      ([], Except.error ("unsupported interval " ++ "2m")) ∧
    (∃ params,
      fetch_ohlcvs ⟨"S", "USDT", "USDT", "umcbl", 1, 2, [], [], []⟩ none none "1m" 120000 =
        ((if (none : Option ℚ) = none then [NetReq.serverTime] else []) ++
          [NetReq.candles params], Except.ok params) ∧
      ((none : Option ℚ) = none →
        params.startTime = pyround (120000 : ℚ) - 1000 * 60 * 100) ∧
      params.endTime = params.startTime + 1000 * 60 * 100) :=
  ⟨(ohlcv_precondition_and_window ⟨"S", "USDT", "USDT", "umcbl", 1, 2, [], [], []⟩
      none none "2m" 0).1 rfl,
    (ohlcv_precondition_and_window ⟨"S", "USDT", "USDT", "umcbl", 1, 2, [], [], []⟩
      none none "1m" 120000).2 60 rfl⟩

/-! ### C8: fills cursor, window and error policy -/

/-- C8: `fetch_fills` sets the vendor cursor `lastEndId` to
`max(0, from_id - 1)` when a starting fill id is given, defaults the start
time to the server time minus 24 hours, always pins the end time to the local
now plus 24 hours (in ms), and returns the empty sequence instead of
propagating any transport or decode error. -/
theorem fills_cursor_window_and_errors (bot : BotState) (symbol : Option String)
    (from_id : Option ℤ) (start_time : Option ℚ) (server_time now : ℚ)
    (venue : FillsParams → Except String (List FillElm)) :
    (∀ fid, from_id = some fid →
      (fill_request_params bot symbol from_id start_time server_time now).lastEndId =
        some (max 0 (fid - 1))) ∧
    (start_time = none →
      (fill_request_params bot symbol from_id start_time server_time now).startTime =
        pyround (server_time - 1000 * 60 * 60 * 24)) ∧
    ((fill_request_params bot symbol from_id start_time server_time now).endTime =
      pyround (now + 60 * 60 * 24) * 1000) ∧
    (∀ e, (do
        let fetched ← venue (fill_request_params bot symbol from_id start_time server_time now)
        fetched.mapM (decodeFill bot) : Except String (List Fill)) = Except.error e →
      fetch_fills bot symbol from_id start_time server_time now venue = []) := by
  refine ⟨?_, ?_, ?_, ?_⟩
  · intro fid h
    unfold fill_request_params
    rw [h]
    rfl
  · intro h
    unfold fill_request_params
    rw [h]
  · rfl
  · intro e h
    unfold fetch_fills
    rw [h]

/-- Witness for C8 at a concrete call whose transport fails. -/
theorem fills_cursor_window_and_errors_witness :
    (fill_request_params ⟨"S", "USDT", "USDT", "umcbl", 1, 2, [], [], []⟩
        none (some 5) none 1000 2000).lastEndId = some (max 0 (5 - 1)) ∧
    (fill_request_params ⟨"S", "USDT", "USDT", "umcbl", 1, 2, [], [], []⟩
        none (some 5) none 1000 2000).startTime =
      pyround ((1000 : ℚ) - 1000 * 60 * 60 * 24) ∧
    (fill_request_params ⟨"S", "USDT", "USDT", "umcbl", 1, 2, [], [], []⟩
        none (some 5) none 1000 2000).endTime = pyround ((2000 : ℚ) + 60 * 60 * 24) * 1000 ∧
    fetch_fills ⟨"S", "USDT", "USDT", "umcbl", 1, 2, [], [], []⟩
      none (some 5) none 1000 2000 (fun _ => Except.error "conn") = [] := by
  have h := fills_cursor_window_and_errors ⟨"S", "USDT", "USDT", "umcbl", 1, 2, [], [], []⟩
    none (some 5) none 1000 2000 (fun _ => Except.error "conn")
  exact ⟨h.1 5 rfl, h.2.1 rfl, h.2.2.1, h.2.2.2 "conn" rfl⟩

/-! ### C9: account-channel asset filter -/

/-- C9 counterexample: for an inverse-contract adapter (quote `USD`, margin
coin `BTC`), an account-channel record for the base-coin margin asset `BTC`
emits nothing, although the claim says it emits a `wallet_balance` event. -/
theorem account_channel_counterexample :
    standardize_user_stream_event
        ⟨"BTCUSD_DMCBL", "USD", "BTC", "dmcbl", 1, 2, [], [], []⟩
        ⟨some "account",
          some [⟨none, none, none, none, none, none, none, none, none, none, none, none,
                 some "BTC", some 5⟩]⟩ = Except.ok [] ∧
    (Except.ok ([] : List StdEvent) : Except String (List StdEvent)) ≠
      Except.ok [{ emptyEvent with wallet_balance := some 5 }] := by
  refine ⟨rfl, ?_⟩
  intro h
  simp at h

/-- C9 (amended): an account-channel record emits
`{wallet_balance: available}` exactly when its margin coin equals the
adapter's quote asset; records for any other asset — including the base-coin
margin asset of inverse contracts — emit nothing. -/
theorem account_channel_matches_quote_only (bot : BotState) (elm : StreamElm) (mc : String)
    (hmc : elm.marginCoin = some mc) :
    (mc = bot.quote → ∀ av, elm.available = some av →
      stdAccountElm bot elm = Except.ok (some { emptyEvent with wallet_balance := some av })) ∧
    (mc ≠ bot.quote → stdAccountElm bot elm = Except.ok none) := by
  constructor
  · intro hq av hav
    subst hq
    unfold stdAccountElm
    rw [hmc, hav]
    simp only [dget_some, ok_bind]
    simp [pure_except]
  · intro hne
    unfold stdAccountElm
    rw [hmc]
    simp only [dget_some, ok_bind]
    rw [if_neg hne]
    rfl

/-- Witness for the amended C9: a quote-asset record emits the balance event,
a base-coin record emits nothing. -/
theorem account_channel_matches_quote_only_witness :
    stdAccountElm ⟨"BTCUSD_DMCBL", "USD", "BTC", "dmcbl", 1, 2, [], [], []⟩
        ⟨none, none, none, none, none, none, none, none, none, none, none, none,
          some "USD", some 3⟩ =
      Except.ok (some { emptyEvent with wallet_balance := some 3 }) ∧
    stdAccountElm ⟨"BTCUSD_DMCBL", "USD", "BTC", "dmcbl", 1, 2, [], [], []⟩
        ⟨none, none, none, none, none, none, none, none, none, none, none, none,
          some "BTC", some 3⟩ =
      Except.ok none :=
  ⟨(account_channel_matches_quote_only ⟨"BTCUSD_DMCBL", "USD", "BTC", "dmcbl", 1, 2, [], [], []⟩
      ⟨none, none, none, none, none, none, none, none, none, none, none, none,
        some "USD", some 3⟩ "USD" rfl).1 rfl 3 rfl,
    (account_channel_matches_quote_only ⟨"BTCUSD_DMCBL", "USD", "BTC", "dmcbl", 1, 2, [], [], []⟩
      ⟨none, none, none, none, none, none, none, none, none, none, none, none,
        some "BTC", some 3⟩ "BTC" rfl).2 (by decide)⟩

end Bitget
